import Mathlib

/-!
# IntelGraphicsFixup: the `IGFX` class of `kern_igfx.hpp`

A shallow embedding of the data members, enumerations and default member
initialisers of `class IGFX`, followed by the properties proved about them.
Pointers are natural-number addresses with `0` standing for `nullptr`; the
four-element member arrays are lists of length four; `int32_t` cursors are
integers.
-/

/-! ## Enumerations -/

/-- The enumerators of `IGFX::FramebufferFixMode` (lines 238-242). -/
def FBDEFAULT : Nat := 0

/-- `FBRESET` enforces -v like usual patch. -/
def FBRESET : Nat := 1

/-- `FBCOPY` enforces screen copy. -/
def FBCOPY : Nat := 2

/-- The enumerator names of `IGFX::SchedulerDecision` (lines 252-260). -/
inductive SchedulerDecision where
  | BasicScheduler
  | ReferenceScheduler
  | AppleScheduler
  | AppleCustomScheduler
  | TotalSchedulers
  deriving DecidableEq, Repr, Fintype

/-- The enumerator list of `SchedulerDecision` as the preprocessor leaves it:
`AppleScheduler` and `AppleCustomScheduler` are present only when
`IGFX_APPLE_SCHEDULER` is defined (`appleScheduler = true`). -/
def SchedulerDecision.enumerators (appleScheduler : Bool) : List SchedulerDecision :=
  [SchedulerDecision.BasicScheduler, SchedulerDecision.ReferenceScheduler]
    ++ (if appleScheduler then
          [SchedulerDecision.AppleScheduler, SchedulerDecision.AppleCustomScheduler]
        else [])
    ++ [SchedulerDecision.TotalSchedulers]

/-- The value of an enumerator: a C enumeration without initialisers numbers
its enumerators from zero in declaration order; `none` when the enumerator is
compiled out. -/
def SchedulerDecision.value (appleScheduler : Bool) (d : SchedulerDecision) : Option Nat :=
  if d ∈ SchedulerDecision.enumerators appleScheduler then
    some ((SchedulerDecision.enumerators appleScheduler).indexOf d)
  else none

/-- The scheduler loading modes the comment on `decideLoadScheduler` lists
(lines 262-267). -/
inductive SchedulerMode where
  | disableFirmware
  | referenceFirmware
  | appleFirmware
  deriving DecidableEq, Repr, Fintype

/-- The number the comment gives each mode: 0 - disable firmware (IGScheduler2),
1 - use reference firmware scheduler (IGScheduler4), 2 - use Apple firmware
scheduler (IGGuC). -/
def SchedulerMode.num : SchedulerMode → Nat
  | SchedulerMode.disableFirmware => 0
  | SchedulerMode.referenceFirmware => 1
  | SchedulerMode.appleFirmware => 2

/-- The value of the closing enumerator `TotalSchedulers`. -/
def SchedulerDecision.total (appleScheduler : Bool) : Nat :=
  (SchedulerDecision.enumerators appleScheduler).indexOf SchedulerDecision.TotalSchedulers

/-- Whether `n` is the value of an enumerator of `SchedulerDecision` and lies
strictly below `TotalSchedulers`. -/
def SchedulerDecision.selects (appleScheduler : Bool) (n : Nat) : Bool :=
  (SchedulerDecision.enumerators appleScheduler).any
    (fun d => SchedulerDecision.value appleScheduler d == some n)
    && decide (n < SchedulerDecision.total appleScheduler)

/-- The five interception flags of `IGFX::ProcessingState` (lines 389-393). -/
inductive ProcessingFlag where
  | CallbackPavpSessionRouted
  | CallbackFrameBufferInitRouted
  | CallbackComputeLaneCountRouted
  | CallbackDriverStartRouted
  | CallbackGuCFirmwareUpdateRouted
  deriving DecidableEq, Repr, Fintype

namespace ProcessingState

def NothingReady : Nat := 0
def CallbackPavpSessionRouted : Nat := 1
def CallbackFrameBufferInitRouted : Nat := 2
def CallbackComputeLaneCountRouted : Nat := 4
def CallbackDriverStartRouted : Nat := 8
def CallbackGuCFirmwareUpdateRouted : Nat := 16

/-- The enumerator `EverythingDone`, written as in the header (lines 394-398). -/
def EverythingDone : Nat :=
  CallbackPavpSessionRouted |||
    CallbackFrameBufferInitRouted |||
    CallbackComputeLaneCountRouted |||
    CallbackDriverStartRouted |||
    CallbackGuCFirmwareUpdateRouted

end ProcessingState

/-- The enumerator value of a flag. -/
def ProcessingFlag.bit : ProcessingFlag → Nat
  | ProcessingFlag.CallbackPavpSessionRouted => ProcessingState.CallbackPavpSessionRouted
  | ProcessingFlag.CallbackFrameBufferInitRouted => ProcessingState.CallbackFrameBufferInitRouted
  | ProcessingFlag.CallbackComputeLaneCountRouted => ProcessingState.CallbackComputeLaneCountRouted
  | ProcessingFlag.CallbackDriverStartRouted => ProcessingState.CallbackDriverStartRouted
  | ProcessingFlag.CallbackGuCFirmwareUpdateRouted => ProcessingState.CallbackGuCFirmwareUpdateRouted

/-- The five flags in declaration order. -/
def ProcessingFlag.all : List ProcessingFlag :=
  [ProcessingFlag.CallbackPavpSessionRouted, ProcessingFlag.CallbackFrameBufferInitRouted,
   ProcessingFlag.CallbackComputeLaneCountRouted, ProcessingFlag.CallbackDriverStartRouted,
   ProcessingFlag.CallbackGuCFirmwareUpdateRouted]

/-- The test `progressState & flag` of a progress mask. -/
def hasFlag (mask : Nat) (f : ProcessingFlag) : Bool :=
  mask &&& f.bit != 0

/-- A progress mask built from `NothingReady` by `|=`-ing flags in, one after
another. -/
def orFlags (fs : List ProcessingFlag) : Nat :=
  fs.foldl (fun m f => m ||| f.bit) ProcessingState.NothingReady

/-! ## Data members of `class IGFX` -/

/-- The data members of `class IGFX` that carry firmware-load, configuration
and progress state, each with its default member initialiser. -/
structure IGFX where
  /-- Framebuffer distortion fix mode (line 247). -/
  resetFramebuffer : Nat := FBDEFAULT
  /-- Scheduler loading mode (line 268); `BasicScheduler` is the first
  enumerator, value 0. -/
  decideLoadScheduler : Nat := 0
  /-- We are currently trying to load the firmware (line 329). -/
  performingFirmwareLoad : Bool := false
  /-- Dummy firmware buffer to store unused old firmware in (line 334). -/
  dummyFirmwareBuffer : List Nat := [0, 0, 0, 0]
  /-- Actual firmware buffer we store our new firmware in (line 339). -/
  realFirmwareBuffer : List Nat := [0, 0, 0, 0]
  /-- Actual firmware address for GPU DMA (line 344). -/
  gpuFirmwareAddress : List Nat := [0, 0, 0, 0]
  /-- Actual intercepted binary sizes (line 349). -/
  realBinarySize : List Nat := [0, 0, 0, 0]
  /-- Pointer to the size assignment (line 354). -/
  firmwareSizePointer : Nat := 0
  /-- Pointer to the signature (line 359). -/
  signaturePointer : List Nat := [0, 0, 0, 0]
  /-- Current binary index: 0 is GuC, 1 is HuC, 2 is HuC signature, 3 is GuC
  public key (line 365). -/
  currentBinaryIndex : Int := -1
  /-- Current dma load index: 0 is HuC, 1 is GuC (line 371). -/
  currentDmaIndex : Int := -1
  /-- Decides on whether to intercept binary loading (line 381). -/
  binaryInterception : List Bool := [true, true, false, false]
  /-- Current progress mask (line 401). -/
  progressState : Nat := ProcessingState.NothingReady
  deriving DecidableEq, Repr

/-- A freshly constructed object: every member holds its default initialiser. -/
def IGFX.fresh : IGFX := {}

/-- An object in the middle of a firmware load for slot `i`, every slot
populated, the interception flags at their defaults. -/
def IGFX.loading (i : Int) : IGFX :=
  { performingFirmwareLoad := true
    dummyFirmwareBuffer := [500, 501, 502, 503]
    realFirmwareBuffer := [600, 601, 602, 603]
    gpuFirmwareAddress := [4096, 8192, 12288, 16384]
    realBinarySize := [100, 200, 300, 400]
    signaturePointer := [700, 701, 702, 703]
    currentBinaryIndex := i }

/-- Whether a cursor selects one of the four slots of the member arrays. -/
def validSlotIndex (i : Int) : Bool :=
  decide (0 ≤ i) && decide (i < 4)

/-! ## Entry-point interceptor

`processKext` is declared in the header (line 61) and defined elsewhere. -/

/-- What the external patcher reports for one hook: the symbol is not found,
the trampoline cannot be installed, or the trampoline is installed. -/
inductive PatchOutcome where
  | notFound
  | installFail
  | installed
  deriving DecidableEq, Repr

/-- The interceptor's view of the object: the progress mask and the log of
trampolines installed so far, latest first. -/
structure Interceptor where
  progressState : Nat
  trampolines : List ProcessingFlag
  deriving DecidableEq, Repr

/-- Modelled from the spec: the body of `IGFX::processKext` is missing from the
header; this is one interception-install attempt as the design text describes
it. A hook whose bit is already set is skipped; a hook whose symbol does not
resolve is skipped and its bit stays 0; otherwise the bit is recorded before
the trampoline is installed, and the trampoline is logged when the patcher
installs it. -/
def installHook (s : Interceptor) (f : ProcessingFlag) (o : PatchOutcome) : Interceptor :=
  if hasFlag s.progressState f then s
  else
    match o with
    | PatchOutcome.notFound => s
    | PatchOutcome.installFail => { s with progressState := s.progressState ||| f.bit }
    | PatchOutcome.installed =>
      { progressState := s.progressState ||| f.bit, trampolines := f :: s.trampolines }

/-- The interceptor of a freshly constructed object. -/
def Interceptor.fresh : Interceptor :=
  { progressState := IGFX.fresh.progressState, trampolines := [] }

/-- The states a sequence of install attempts passes through, the starting
state first. -/
def runInstalls (s : Interceptor) : List (ProcessingFlag × PatchOutcome) → List Interceptor
  | [] => [s]
  | step :: rest => s :: runInstalls (installHook s step.1 step.2) rest

/-- The progress masks along a sequence of install attempts that starts from
a freshly constructed object. -/
def maskTrace (steps : List (ProcessingFlag × PatchOutcome)) : List Nat :=
  (runInstalls Interceptor.fresh steps).map Interceptor.progressState

/-- The trampoline log holds no flag twice, and every logged flag has its bit
set in the progress mask. -/
def Interceptor.consistent (s : Interceptor) : Prop :=
  s.trampolines.Nodup ∧ ∀ f ∈ s.trampolines, hasFlag s.progressState f = true

/-- Every bit of `a` is a bit of `b`. -/
def containsMask (a b : Nat) : Bool :=
  a &&& b == a

/-- Each mask of the list contains every bit of the mask before it. -/
def stepwiseContained : List Nat → Bool
  | a :: b :: rest => containsMask a b && stepwiseContained (b :: rest)
  | _ => true

/-- Each mask of the list is at least the mask before it, as a number. -/
def stepwiseNonDecreasing : List Nat → Bool
  | a :: b :: rest => decide (a ≤ b) && stepwiseNonDecreasing (b :: rest)
  | _ => true

/-- How often the flag goes from clear to set between neighbouring masks. -/
def risingEdges (f : ProcessingFlag) : List Nat → Nat
  | a :: b :: rest =>
    (if !hasFlag a f && hasFlag b f then 1 else 0) + risingEdges f (b :: rest)
  | _ => 0

/-- How often the flag goes from set to clear between neighbouring masks. -/
def fallingEdges (f : ProcessingFlag) : List Nat → Nat
  | a :: b :: rest =>
    (if hasFlag a f && !hasFlag b f then 1 else 0) + fallingEdges f (b :: rest)
  | _ => 0

/-! ## Firmware redirection engine

`dmaHostToGuC` is declared in the header (line 190) and defined elsewhere. -/

/-- The arguments of `IGGuC::dmaHostToGuC` (line 170). -/
structure DmaArgs where
  that : Nat
  gpuAddr : Nat
  gpuReg : Nat
  dataLen : Nat
  dmaType : Nat
  unk : Bool
  deriving DecidableEq, Repr

/-- What one call of the DMA substitute does: the arguments it hands to the
original, and the stores `(address, value)` it makes through pointers. -/
structure DmaEffect where
  forwarded : DmaArgs
  stores : List (Nat × Nat)
  deriving DecidableEq, Repr

/-- Whether the DMA substitute redirects the transfer for the current slot:
the call is for the managed device, the current binary index selects a slot,
interception is enabled for it and its real buffer has been populated. -/
def dmaRedirects (s : IGFX) (managed : Nat) (a : DmaArgs) : Bool :=
  decide (a.that = managed) && validSlotIndex s.currentBinaryIndex
    && s.binaryInterception.getD s.currentBinaryIndex.toNat false
    && (s.realFirmwareBuffer.getD s.currentBinaryIndex.toNat 0 != 0)

/-- Modelled from the spec: the body of `IGFX::dmaHostToGuC` is missing from
the header; this is the DMATransfer step of the design text. When the
transfer is redirected the length becomes the slot's `realBinarySize`, the
address the slot's `gpuFirmwareAddress`, and the size is stored through the
slot's `signaturePointer` when that is not null; otherwise the call is
forwarded as it came. `managed` is the graphics device instance the
subsystem manages. -/
def dmaHostToGuC (s : IGFX) (managed : Nat) (a : DmaArgs) : DmaEffect :=
  if dmaRedirects s managed a then
    let i := s.currentBinaryIndex.toNat
    { forwarded :=
        { a with gpuAddr := s.gpuFirmwareAddress.getD i 0, dataLen := s.realBinarySize.getD i 0 },
      stores :=
        if s.signaturePointer.getD i 0 != 0 then
          [(s.signaturePointer.getD i 0, s.realBinarySize.getD i 0)]
        else [] }
  else { forwarded := a, stores := [] }

/-! ## Checks on concrete values -/

example : ProcessingState.EverythingDone = 31 := by decide
example : SchedulerDecision.value false SchedulerDecision.TotalSchedulers = some 2 := by decide
example : SchedulerDecision.value true SchedulerDecision.TotalSchedulers = some 4 := by decide
example : SchedulerDecision.value false SchedulerDecision.AppleScheduler = none := by decide
example : orFlags [ProcessingFlag.CallbackDriverStartRouted,
    ProcessingFlag.CallbackPavpSessionRouted] = 9 := by decide
example : validSlotIndex IGFX.fresh.currentBinaryIndex = false := by decide
example : SchedulerDecision.selects false 1 = true := by decide
example : SchedulerDecision.selects false 2 = false := by decide
example : SchedulerDecision.selects true 2 = true := by decide
example : maskTrace [(ProcessingFlag.CallbackDriverStartRouted, PatchOutcome.installed),
    (ProcessingFlag.CallbackDriverStartRouted, PatchOutcome.installed),
    (ProcessingFlag.CallbackPavpSessionRouted, PatchOutcome.notFound),
    (ProcessingFlag.CallbackPavpSessionRouted, PatchOutcome.installFail)] = [0, 8, 8, 8, 9] := by
  decide
example : dmaHostToGuC (IGFX.loading 0) 1 ⟨1, 5, 6, 7, 8, false⟩
    = ⟨⟨1, 4096, 6, 100, 8, false⟩, [(700, 100)]⟩ := by decide
example : dmaHostToGuC (IGFX.loading 2) 1 ⟨1, 5, 6, 7, 8, false⟩
    = ⟨⟨1, 5, 6, 7, 8, false⟩, []⟩ := by decide

/-! ## Lemmas on progress masks -/

theorem containsMask_or (m b : Nat) : containsMask m (m ||| b) = true := by
  have h : m &&& (m ||| b) = m := by
    apply Nat.eq_of_testBit_eq
    intro i
    simp only [Nat.testBit_and, Nat.testBit_or]
    cases m.testBit i <;> simp
  simp [containsMask, h]

theorem containsMask_self (m : Nat) : containsMask m m = true := by
  simp [containsMask]

theorem containsMask_le {a b : Nat} (h : containsMask a b = true) : a ≤ b := by
  have h1 : a &&& b = a := by simpa [containsMask] using h
  calc a = a &&& b := h1.symm
    _ ≤ b := Nat.and_le_right

theorem hasFlag_of_containsMask {a b : Nat} (f : ProcessingFlag)
    (h : containsMask a b = true) (ha : hasFlag a f = true) : hasFlag b f = true := by
  have h1 : a &&& b = a := by simpa [containsMask] using h
  have h2 : a &&& f.bit ≠ 0 := by simpa [hasFlag] using ha
  have h3 : b &&& f.bit ≠ 0 := by
    intro hz
    apply h2
    calc a &&& f.bit = (a &&& b) &&& f.bit := by rw [h1]
      _ = a &&& (b &&& f.bit) := Nat.and_assoc a b f.bit
      _ = 0 := by rw [hz, Nat.and_zero]
  simpa [hasFlag] using h3

theorem installHook_contains (s : Interceptor) (f : ProcessingFlag) (o : PatchOutcome) :
    containsMask s.progressState (installHook s f o).progressState = true := by
  unfold installHook
  split
  · exact containsMask_self _
  · cases o
    · exact containsMask_self _
    · exact containsMask_or _ _
    · exact containsMask_or _ _

theorem runInstalls_head (s : Interceptor) (steps : List (ProcessingFlag × PatchOutcome)) :
    ∃ tl, runInstalls s steps = s :: tl := by
  cases steps with
  | nil => exact ⟨[], rfl⟩
  | cons step rest => exact ⟨_, rfl⟩

theorem runInstalls_contained (steps : List (ProcessingFlag × PatchOutcome)) :
    ∀ s : Interceptor,
      stepwiseContained ((runInstalls s steps).map Interceptor.progressState) = true := by
  induction steps with
  | nil => intro s; simp [runInstalls, stepwiseContained]
  | cons step rest ih =>
    intro s
    obtain ⟨tl, htl⟩ := runInstalls_head (installHook s step.1 step.2) rest
    have h := ih (installHook s step.1 step.2)
    rw [htl] at h
    simp only [runInstalls, htl, List.map_cons, stepwiseContained, Bool.and_eq_true]
    exact ⟨installHook_contains s step.1 step.2, by simpa using h⟩

theorem nonDecreasing_of_contained :
    ∀ tr : List Nat, stepwiseContained tr = true → stepwiseNonDecreasing tr = true
  | [], _ => by simp [stepwiseNonDecreasing]
  | [_], _ => by simp [stepwiseNonDecreasing]
  | a :: b :: rest, h => by
    simp only [stepwiseContained, Bool.and_eq_true] at h
    simp only [stepwiseNonDecreasing, Bool.and_eq_true, decide_eq_true_eq]
    exact ⟨containsMask_le h.1, nonDecreasing_of_contained (b :: rest) h.2⟩

theorem fallingEdges_of_contained (f : ProcessingFlag) :
    ∀ tr : List Nat, stepwiseContained tr = true → fallingEdges f tr = 0
  | [], _ => by simp [fallingEdges]
  | [_], _ => by simp [fallingEdges]
  | a :: b :: rest, h => by
    simp only [stepwiseContained, Bool.and_eq_true] at h
    have ih := fallingEdges_of_contained f (b :: rest) h.2
    have hmono := hasFlag_of_containsMask f h.1
    simp only [fallingEdges, ih, Nat.add_zero]
    cases ha : hasFlag a f
    · simp
    · simp [hmono ha]

theorem risingEdges_of_contained (f : ProcessingFlag) :
    ∀ tr : List Nat, stepwiseContained tr = true →
      risingEdges f tr ≤ 1 ∧ (tr.head?.any (fun m => hasFlag m f) = true → risingEdges f tr = 0)
  | [], _ => by simp [risingEdges]
  | [_], _ => by simp [risingEdges]
  | a :: b :: rest, h => by
    simp only [stepwiseContained, Bool.and_eq_true] at h
    have ih := risingEdges_of_contained f (b :: rest) h.2
    have hmono := hasFlag_of_containsMask f h.1
    simp only [List.head?_cons, Option.any_some] at ih ⊢
    cases ha : hasFlag a f
    · cases hb : hasFlag b f
      · have := ih.1
        simp [risingEdges, ha, hb]
        exact this
      · have := ih.2 hb
        simp [risingEdges, ha, hb, this]
    · have hb := hmono ha
      have := ih.2 hb
      simp [risingEdges, ha, hb, this]

theorem or_bit_lt (m : Nat) (hm : m < 32) (g : ProcessingFlag) : m ||| g.bit < 32 := by
  revert g
  revert m
  decide

theorem hasFlag_or_bit (m : Nat) (hm : m < 32) (g f : ProcessingFlag) :
    hasFlag (m ||| g.bit) f = (hasFlag m f || decide (f = g)) := by
  revert f
  revert g
  revert m
  decide

theorem eq_everythingDone_iff (m : Nat) (hm : m < 32) :
    m = ProcessingState.EverythingDone ↔ ∀ f : ProcessingFlag, hasFlag m f = true := by
  revert m
  decide

theorem foldl_or_bit (fs : List ProcessingFlag) :
    ∀ m : Nat, m < 32 →
      fs.foldl (fun m f => m ||| f.bit) m < 32 ∧
      ∀ f : ProcessingFlag,
        hasFlag (fs.foldl (fun m f => m ||| f.bit) m) f = true ↔ hasFlag m f = true ∨ f ∈ fs := by
  induction fs with
  | nil => intro m hm; simp [hm]
  | cons g rest ih =>
    intro m hm
    obtain ⟨hlt, hiff⟩ := ih (m ||| g.bit) (or_bit_lt m hm g)
    refine ⟨by simpa using hlt, ?_⟩
    intro f
    simp only [List.foldl_cons, List.mem_cons]
    rw [hiff f, hasFlag_or_bit m hm g f]
    simp [or_assoc]

/-! ## Install-once along a run -/

theorem hasFlag_or_own_bit (m : Nat) (f : ProcessingFlag) : hasFlag (m ||| f.bit) f = true := by
  have hc : containsMask f.bit (m ||| f.bit) = true := by
    have h : f.bit &&& (m ||| f.bit) = f.bit := by
      apply Nat.eq_of_testBit_eq
      intro i
      simp only [Nat.testBit_and, Nat.testBit_or]
      cases f.bit.testBit i <;> simp
    simp [containsMask, h]
  have hown : hasFlag f.bit f = true := by
    cases f <;> decide
  exact hasFlag_of_containsMask f hc hown

theorem installHook_consistent (s : Interceptor) (f : ProcessingFlag) (o : PatchOutcome)
    (hs : s.consistent) : (installHook s f o).consistent := by
  unfold installHook
  by_cases hf : hasFlag s.progressState f = true
  · simpa [hf] using hs
  · have hmono : ∀ g ∈ s.trampolines, hasFlag (s.progressState ||| f.bit) g = true :=
      fun g hg => hasFlag_of_containsMask g (containsMask_or _ _) (hs.2 g hg)
    cases o with
    | notFound => simpa [hf] using hs
    | installFail =>
      simp only [hf]
      exact ⟨hs.1, hmono⟩
    | installed =>
      simp only [hf]
      refine ⟨List.nodup_cons.2 ⟨fun hmem => hf (hs.2 f hmem), hs.1⟩, ?_⟩
      intro g hg
      rcases List.mem_cons.1 hg with rfl | hg
      · exact hasFlag_or_own_bit _ _
      · exact hmono g hg

/-- Along every run from a freshly constructed object no trampoline is ever
installed twice. -/
theorem runInstalls_consistent (steps : List (ProcessingFlag × PatchOutcome)) :
    ∀ s : Interceptor, s.consistent → ∀ t ∈ runInstalls s steps, t.consistent := by
  induction steps with
  | nil =>
    intro s hs t ht
    simp only [runInstalls, List.mem_singleton] at ht
    exact ht ▸ hs
  | cons step rest ih =>
    intro s hs t ht
    simp only [runInstalls, List.mem_cons] at ht
    rcases ht with rfl | ht
    · exact hs
    · exact ih _ (installHook_consistent s step.1 step.2 hs) t ht

theorem trampolines_installed_once (steps : List (ProcessingFlag × PatchOutcome)) :
    ∀ t ∈ runInstalls Interceptor.fresh steps, t.trampolines.Nodup :=
  fun t ht => (runInstalls_consistent steps Interceptor.fresh
    ⟨List.nodup_nil, by simp [Interceptor.fresh]⟩ t ht).1

/-! ## Progress state -/

/-- C1 (install-once): for every progress mask `m`, every installed-trampoline
log and each of the five flags `f`, when the bit of `f` is already set in `m`
an install attempt for `f` adds no trampoline to the log and leaves the mask
equal to `m`, with `f` still set, whatever the patcher would have reported. -/
theorem install_once (m : Nat) (log : List ProcessingFlag) (f : ProcessingFlag)
    (o : PatchOutcome) (hset : hasFlag m f = true) :
    (installHook ⟨m, log⟩ f o).trampolines = log ∧
      (installHook ⟨m, log⟩ f o).progressState = m ∧
      hasFlag (installHook ⟨m, log⟩ f o).progressState f = true := by
  simp [installHook, hset]

theorem install_once_witness :
    hasFlag 8 ProcessingFlag.CallbackDriverStartRouted = true ∧
      (installHook ⟨8, [ProcessingFlag.CallbackDriverStartRouted]⟩
          ProcessingFlag.CallbackDriverStartRouted PatchOutcome.installed).trampolines
        = [ProcessingFlag.CallbackDriverStartRouted] ∧
      (installHook ⟨8, [ProcessingFlag.CallbackDriverStartRouted]⟩
          ProcessingFlag.CallbackDriverStartRouted PatchOutcome.installed).progressState = 8 ∧
      hasFlag (installHook ⟨8, [ProcessingFlag.CallbackDriverStartRouted]⟩
          ProcessingFlag.CallbackDriverStartRouted PatchOutcome.installed).progressState
        ProcessingFlag.CallbackDriverStartRouted = true :=
  ⟨by decide, install_once 8 [ProcessingFlag.CallbackDriverStartRouted]
    ProcessingFlag.CallbackDriverStartRouted PatchOutcome.installed (by decide)⟩

/-- C2 (monotone progress mask): along every sequence of install attempts that
starts from `progressState = NothingReady`, each mask contains every bit of the
mask before it and is at least as large as a number; no flag goes from set to
clear, and each of the five flags goes from clear to set at most once. -/
theorem progress_mask_monotone (steps : List (ProcessingFlag × PatchOutcome)) :
    (maskTrace steps).head? = some ProcessingState.NothingReady ∧
      stepwiseContained (maskTrace steps) = true ∧
      stepwiseNonDecreasing (maskTrace steps) = true ∧
      ∀ f : ProcessingFlag,
        fallingEdges f (maskTrace steps) = 0 ∧ risingEdges f (maskTrace steps) ≤ 1 := by
  have hc : stepwiseContained (maskTrace steps) = true :=
    runInstalls_contained steps Interceptor.fresh
  refine ⟨?_, hc, nonDecreasing_of_contained _ hc, fun f =>
    ⟨fallingEdges_of_contained f _ hc, (risingEdges_of_contained f _ hc).1⟩⟩
  obtain ⟨tl, htl⟩ := runInstalls_head Interceptor.fresh steps
  rw [maskTrace, htl]
  rfl

/-- C3 (all done): `EverythingDone` is the bitwise OR of the five flags 1, 2,
4, 8 and 16, which is 31; and a mask built from `NothingReady` by OR-ing
flags in, in any order and with any repetition, equals `EverythingDone`
exactly when each of the five flags has been OR-ed in. -/
theorem everythingDone_iff_all_flags :
    ProcessingFlag.all.map ProcessingFlag.bit = [1, 2, 4, 8, 16] ∧
      ProcessingState.EverythingDone = 1 ||| 2 ||| 4 ||| 8 ||| 16 ∧
      ProcessingState.EverythingDone = 31 ∧
      ProcessingState.EverythingDone = orFlags ProcessingFlag.all ∧
      ∀ fs : List ProcessingFlag,
        orFlags fs = ProcessingState.EverythingDone ↔ ∀ f : ProcessingFlag, f ∈ fs := by
  refine ⟨by decide, by decide, by decide, by decide, ?_⟩
  intro fs
  obtain ⟨hlt, hiff⟩ := foldl_or_bit fs ProcessingState.NothingReady (by decide)
  have hnone : ∀ f : ProcessingFlag, hasFlag ProcessingState.NothingReady f = false := by decide
  unfold orFlags
  rw [eq_everythingDone_iff _ hlt]
  constructor
  · intro h f
    have := (hiff f).1 (h f)
    simpa [hnone f] using this
  · intro h f
    exact (hiff f).2 (Or.inr (h f))

/-! ## Firmware load state -/

/-- C4 (pass-through of a slot that is not intercepted): for every object
state, every slot index `i` in 0..3 with `binaryInterception[i] = false` and
every DMA call made while `currentBinaryIndex = i`, the DMA substitute hands the
caller's `gpuAddr` and `dataLen` (indeed all arguments) to the original
unchanged and stores nothing, so nothing is written through
`signaturePointer[i]`; slot 2 (HuC signature) is such a slot under the default
configuration. -/
theorem dma_passthrough_when_not_intercepted (s : IGFX) (managed : Nat) (a : DmaArgs)
    (i : Nat) (_hi : i < 4) (hcur : s.currentBinaryIndex = (i : Int))
    (hoff : s.binaryInterception[i]? = some false) :
    (dmaHostToGuC s managed a).forwarded.gpuAddr = a.gpuAddr ∧
      (dmaHostToGuC s managed a).forwarded.dataLen = a.dataLen ∧
      (dmaHostToGuC s managed a).forwarded = a ∧
      (dmaHostToGuC s managed a).stores = [] ∧
      IGFX.fresh.binaryInterception[2]? = some false := by
  have hred : dmaRedirects s managed a = false := by
    simp [dmaRedirects, hcur, List.getD_eq_getElem?_getD, hoff]
  have hdef : IGFX.fresh.binaryInterception[2]? = some false := by decide
  simp [dmaHostToGuC, hred, hdef]

theorem dma_passthrough_when_not_intercepted_witness :
    (dmaHostToGuC (IGFX.loading 2) 1 ⟨1, 5, 6, 7, 8, false⟩).forwarded.gpuAddr = 5 ∧
      (dmaHostToGuC (IGFX.loading 2) 1 ⟨1, 5, 6, 7, 8, false⟩).forwarded.dataLen = 7 ∧
      (dmaHostToGuC (IGFX.loading 2) 1 ⟨1, 5, 6, 7, 8, false⟩).forwarded
        = ⟨1, 5, 6, 7, 8, false⟩ ∧
      (dmaHostToGuC (IGFX.loading 2) 1 ⟨1, 5, 6, 7, 8, false⟩).stores = [] ∧
      IGFX.fresh.binaryInterception[2]? = some false :=
  dma_passthrough_when_not_intercepted (IGFX.loading 2) 1 ⟨1, 5, 6, 7, 8, false⟩ 2
    (by decide) (by decide) (by decide)

/-- C6 (default interception flags): in a freshly constructed object the
interception array has four entries, and for every slot index `i` in 0..3 the
flag is true exactly when `i < 2` (GuC and HuC binaries) and false exactly when
`2 ≤ i` (HuC signature and GuC public key). -/
theorem binaryInterception_default (i : Nat) (hi : i < 4) :
    IGFX.fresh.binaryInterception.length = 4 ∧
      (IGFX.fresh.binaryInterception[i]? = some true ↔ i < 2) ∧
      (IGFX.fresh.binaryInterception[i]? = some false ↔ 2 ≤ i) := by
  interval_cases i <;> decide

theorem binaryInterception_default_witness :
    IGFX.fresh.binaryInterception.length = 4 ∧
      (IGFX.fresh.binaryInterception[1]? = some true ↔ 1 < 2) ∧
      (IGFX.fresh.binaryInterception[1]? = some false ↔ 2 ≤ 1) :=
  binaryInterception_default 1 (by decide)

/-- C9 (fresh object is idle): a freshly constructed object has
`currentBinaryIndex = -1`, `currentDmaIndex = -1` and
`performingFirmwareLoad = false`; both cursors lie in -1..3, neither is an
index into the four-element slot arrays, and the DMA cursor is neither 0 nor 1,
the two values its comment assigns to a transfer. -/
theorem fresh_is_idle :
    IGFX.fresh.currentBinaryIndex = -1 ∧
      IGFX.fresh.currentDmaIndex = -1 ∧
      IGFX.fresh.performingFirmwareLoad = false ∧
      (-1 ≤ IGFX.fresh.currentBinaryIndex ∧ IGFX.fresh.currentBinaryIndex ≤ 3) ∧
      (-1 ≤ IGFX.fresh.currentDmaIndex ∧ IGFX.fresh.currentDmaIndex ≤ 3) ∧
      validSlotIndex IGFX.fresh.currentBinaryIndex = false ∧
      validSlotIndex IGFX.fresh.currentDmaIndex = false ∧
      (IGFX.fresh.currentDmaIndex ≠ 0 ∧ IGFX.fresh.currentDmaIndex ≠ 1) ∧
      [IGFX.fresh.dummyFirmwareBuffer.length, IGFX.fresh.realFirmwareBuffer.length,
        IGFX.fresh.gpuFirmwareAddress.length, IGFX.fresh.realBinarySize.length,
        IGFX.fresh.signaturePointer.length, IGFX.fresh.binaryInterception.length]
        = [4, 4, 4, 4, 4, 4] := by
  decide

/-! ## Configuration -/

/-- C7, as stated, fails: without `IGFX_APPLE_SCHEDULER` the enumeration ends
at `TotalSchedulers = 2`, `AppleScheduler` is compiled out, and mode 2 (Apple
firmware) is no enumerator value strictly below `TotalSchedulers`. -/
theorem apple_mode_not_below_total :
    SchedulerMode.appleFirmware.num = 2 ∧
      SchedulerDecision.total false = 2 ∧
      SchedulerDecision.value false SchedulerDecision.AppleScheduler = none ∧
      SchedulerDecision.selects false SchedulerMode.appleFirmware.num = false := by
  decide

/-- C7 (amended): the modes are numbered 0 = disable firmware, 1 = reference
firmware, 2 = Apple firmware; in every build modes 0 and 1 are the values of
`BasicScheduler` and `ReferenceScheduler`, strictly below `TotalSchedulers`;
mode 2 is the value of an enumerator (`AppleScheduler`) strictly below
`TotalSchedulers` exactly when `IGFX_APPLE_SCHEDULER` is defined, where
`TotalSchedulers` is 4, and otherwise `TotalSchedulers` is 2; the initial mode
`decideLoadScheduler` is 0, the value of `BasicScheduler`. -/
theorem scheduler_modes (appleScheduler : Bool) :
    (SchedulerMode.disableFirmware.num = 0 ∧ SchedulerMode.referenceFirmware.num = 1 ∧
        SchedulerMode.appleFirmware.num = 2) ∧
      SchedulerDecision.value appleScheduler SchedulerDecision.BasicScheduler = some 0 ∧
      SchedulerDecision.value appleScheduler SchedulerDecision.ReferenceScheduler = some 1 ∧
      SchedulerDecision.selects appleScheduler SchedulerMode.disableFirmware.num = true ∧
      SchedulerDecision.selects appleScheduler SchedulerMode.referenceFirmware.num = true ∧
      SchedulerDecision.selects appleScheduler SchedulerMode.appleFirmware.num = appleScheduler ∧
      SchedulerDecision.value appleScheduler SchedulerDecision.AppleScheduler
        = (if appleScheduler then some 2 else none) ∧
      SchedulerDecision.total appleScheduler = (if appleScheduler then 4 else 2) ∧
      IGFX.fresh.decideLoadScheduler = 0 ∧
      SchedulerDecision.value appleScheduler SchedulerDecision.BasicScheduler
        = some IGFX.fresh.decideLoadScheduler := by
  cases appleScheduler <;> decide
